import Mathlib

/-!
# Verification of the cotisations dashboard core (`src/app.py`)

Shallow embedding of the data pipeline of the dashboard: a contribution
record is one row of the loaded spreadsheet; the dataframe is a `List Record`.
Pandas operations are modelled as list operations:

* boolean-mask filtering (`df[mask]`) keeps the matching rows in order,
  modelled by `List.filter`;
* `groupby(k)[v].sum()` produces one `(key, sum)` entry per distinct key,
  keys sorted ascending (pandas sorts group keys), modelled by mapping over
  the sorted deduplicated key list;
* `.reindex(labels)` re-keys a series by `labels`; a label absent from the
  index yields the missing value NaN, modelled by `Option` (`none` = NaN);
* `pivot_table(index, columns, values, aggfunc="sum", fill_value=0)` has one
  row per distinct index value and one column per distinct column value that
  occurs in the data, cells summed, absent combinations filled with `0`;
* a Python `KeyError` (dict lookup miss) is modelled by `Option`-valued
  lookup and an `Option`-valued traversal.

Amounts and years are integers (`amount` is numeric in the source; the
claims only involve sums and comparisons with `0`, which are exact).
-/

namespace Cotisations

/-- One row of the spreadsheet: columns `NOM`, `ANNEE`, `MOIS`, `MONTANT`. -/
structure Record where
  nom : String
  annee : Int
  mois : String
  montant : Int
deriving DecidableEq, Repr

/-- The canonical month list of `src/app.py` (variable `mois`, lines 39-40). -/
def mois : List String :=
  ["Janvier", "Février", "Mars", "Avril", "Mai", "Juin",
   "Juillet", "Août", "Septembre", "Octobre", "Novembre", "Décembre"]

/-- The month-name → month-number dictionary (`mois_map`, lines 73-77).
A key outside the dictionary raises `KeyError` in Python, modelled by
`none`. -/
def mois_map (m : String) : Option Nat :=
  if m = "Janvier" then some 1
  else if m = "Février" then some 2
  else if m = "Mars" then some 3
  else if m = "Avril" then some 4
  else if m = "Mai" then some 5
  else if m = "Juin" then some 6
  else if m = "Juillet" then some 7
  else if m = "Août" then some 8
  else if m = "Septembre" then some 9
  else if m = "Octobre" then some 10
  else if m = "Novembre" then some 11
  else if m = "Décembre" then some 12
  else none

/-- The filtered dataframe (`df_filtre`, line 46):
`df[df["ANNEE"].isin(annee_select) & df["NOM"].isin(membre_select) &
df["MOIS"].isin(mois_select)]`. Boolean-mask selection keeps rows in their
original order. -/
def df_filtre (df : List Record) (annee_select : List Int)
    (membre_select : List String) (mois_select : List String) : List Record :=
  df.filter (fun r =>
    annee_select.contains r.annee && membre_select.contains r.nom
      && mois_select.contains r.mois)

/-- `total_cotisations = df_filtre["MONTANT"].sum()` (line 51). -/
def total_cotisations (df : List Record) : Int :=
  (df.map (·.montant)).sum

/-- `nb_paiements = (df_filtre["MONTANT"] > 0).sum()` (line 52). -/
def nb_paiements (df : List Record) : Nat :=
  df.countP (fun r => 0 < r.montant)

/-- `nb_non_paiements = (df_filtre["MONTANT"] == 0).sum()` (line 53). -/
def nb_non_paiements (df : List Record) : Nat :=
  df.countP (fun r => r.montant = 0)

/-- `nb_membres = df_filtre["NOM"].nunique()` (line 54). -/
def nb_membres (df : List Record) : Nat :=
  ((df.map (·.nom)).dedup).length

/-- `total_par_annee = df_filtre.groupby("ANNEE")["MONTANT"].sum()` (line 101):
one entry per distinct year, keys sorted ascending (pandas sorts group keys),
value = sum of the amounts of that year's rows. -/
def total_par_annee (df : List Record) : List (Int × Int) :=
  (List.insertionSort (· ≤ ·) ((df.map (·.annee)).dedup)).map
    (fun y => (y, ((df.filter (fun r => r.annee = y)).map (·.montant)).sum))

/-- `total_par_membre = df_filtre.groupby("NOM")["MONTANT"].sum()` (line 113):
one entry per distinct member name, value = sum of that member's amounts.
Pandas sorts the keys as strings; the key order is immaterial to every claim,
so the deterministic order of distinct values is used here. -/
def total_par_membre (df : List Record) : List (String × Int) :=
  ((df.map (·.nom)).dedup).map
    (fun n => (n, ((df.filter (fun r => r.nom = n)).map (·.montant)).sum))

/-- The series `df_filtre.groupby("MOIS")["MONTANT"].sum()` (line 125, before
`.reindex`): one entry per distinct month value actually present. -/
def groupby_mois_sum (df : List Record) : List (String × Int) :=
  ((df.map (·.mois)).dedup).map
    (fun m => (m, ((df.filter (fun r => r.mois = m)).map (·.montant)).sum))

/-- `total_par_mois = df_filtre.groupby("MOIS")["MONTANT"].sum().reindex(mois)`
(line 125): the grouped series re-keyed by the canonical month list. A label
absent from the grouped index yields pandas' missing value NaN, modelled by
`none`. -/
def total_par_mois (df : List Record) : List (String × Option Int) :=
  mois.map (fun m =>
    (m, ((groupby_mois_sum df).find? (fun p => p.1 = m)).map (·.2)))

/-- The arrears loop (lines 80-88): for each row of `df_filtre` in order,
look the month up in `mois_map` (a miss raises `KeyError`, modelled by the
whole result being `none`), and append the row's `NOM` when the row's
(year, month) is strictly before the reference (year, month) and its amount
is `0`. In the source the reference is `datetime.date.today()`; it is an
explicit parameter here. -/
def retards (df : List Record) (current_year : Int) (current_month : Nat) :
    Option (List String) :=
  match df with
  | [] => some []
  | row :: rest =>
    match mois_map row.mois with
    | none => none
    | some mois_num =>
      match retards rest current_year current_month with
      | none => none
      | some acc =>
        if row.annee < current_year
            ∨ (row.annee = current_year ∧ mois_num < current_month) then
          if row.montant = 0 then some (row.nom :: acc) else some acc
        else some acc

/-- `retards_df = pd.DataFrame(retards, columns=["NOM"]).value_counts()...`
(line 90): one entry per distinct name in the arrears list with its number of
occurrences. `value_counts` orders entries by descending count; the order is
immaterial to every claim, so the deterministic order of distinct values is
used here. -/
def retards_df (df : List Record) (current_year : Int) (current_month : Nat) :
    Option (List (String × Nat)) :=
  (retards df current_year current_month).map
    (fun names => (names.dedup).map (fun n => (n, names.count n)))

/-- `pivot = df_filtre.pivot_table(index="NOM", columns="MOIS",
values="MONTANT", aggfunc="sum", fill_value=0)` (line 144): one row per
distinct member present, one column per distinct month value present in the
data, cell = sum of the amounts of the matching rows, `0` (`fill_value`) when
no row matches. Pandas sorts row and column labels; the label order is
immaterial to every claim, so the deterministic order of distinct values is
used here. -/
def pivot (df : List Record) : List (String × List (String × Int)) :=
  ((df.map (·.nom)).dedup).map (fun n =>
    (n, ((df.map (·.mois)).dedup).map (fun m =>
      (m, ((df.filter (fun r => r.nom = n && r.mois = m)).map (·.montant)).sum))))

/-! ## Spec-side definitions

The following definitions are written from the specification's words, for
refinement comparison with the source-derived definitions above. -/

/-- Spec side: `canonical_month_index`, the 1-based position of a month name
in the canonical January-to-December order. -/
def canonical_month_index (m : String) : Nat :=
  mois.indexOf m + 1

/-- Spec side: a record is in arrears for a reference (year, month) iff its
(year, month) strictly precedes the reference — `year < ref_year`, or
`year = ref_year` and the canonical month index is less than the reference
month index — and its amount equals `0`. -/
def spec_in_arrears (r : Record) (ref_year : Int) (ref_month : Nat) : Prop :=
  (r.annee < ref_year
    ∨ (r.annee = ref_year ∧ canonical_month_index r.mois < ref_month))
  ∧ r.montant = 0

instance (r : Record) (ref_year : Int) (ref_month : Nat) :
    Decidable (spec_in_arrears r ref_year ref_month) :=
  inferInstanceAs (Decidable ((_ ∨ _ ∧ _) ∧ _))

/-- Spec side: the filter keeps exactly the records whose year, member and
month each belong to the corresponding selection set. -/
def spec_keep (r : Record) (annee_select : List Int)
    (membre_select : List String) (mois_select : List String) : Prop :=
  r.annee ∈ annee_select ∧ r.nom ∈ membre_select ∧ r.mois ∈ mois_select

instance (r : Record) (annee_select : List Int) (membre_select : List String)
    (mois_select : List String) :
    Decidable (spec_keep r annee_select membre_select mois_select) :=
  inferInstanceAs (Decidable (_ ∧ _ ∧ _))

/-- Spec side: the number of distinct (year, month) pairs that are strictly
before the reference month and have amount `0` for a given member — the
count the specification's Arrears Tally paragraph describes. -/
def spec_distinct_arrears_count (df : List Record) (n : String)
    (ref_year : Int) (ref_month : Nat) : Nat :=
  (((df.filter (fun r =>
      r.nom = n && decide (spec_in_arrears r ref_year ref_month))).map
    (fun r => (r.annee, r.mois))).dedup).length

/-- The record set of the specification's scenario section: Alice paid 5000
in January 2024, Alice unpaid in February 2024, Bob unpaid in January 2024. -/
def demo_df : List Record :=
  [⟨"Alice", 2024, "Janvier", 5000⟩, ⟨"Alice", 2024, "Février", 0⟩,
   ⟨"Bob", 2024, "Janvier", 0⟩]

/-! ## Helper lemmas -/

/-- On a canonical month name, the source dictionary `mois_map` succeeds and
returns the 1-based canonical index. -/
theorem mois_map_eq_canonical (m : String) (hm : m ∈ mois) :
    mois_map m = some (canonical_month_index m) := by
  fin_cases hm <;> rfl

/-- Splitting a sum of mapped values along a Boolean predicate. -/
theorem sum_map_filter_add {α : Type} (p : α → Bool) (f : α → Int) (l : List α) :
    ((l.filter p).map f).sum + ((l.filter (fun a => !p a)).map f).sum
      = (l.map f).sum := by
  induction l with
  | nil => simp
  | cons a l ih =>
    by_cases h : p a = true
    · simp [List.filter_cons, h]
      omega
    · simp [List.filter_cons, h]
      omega

/-- `find?` on a list of `(key, value)` pairs built over a key list: it
returns the pair of the key looked up exactly when that key occurs. -/
theorem find_in_keyed_map {κ β : Type} [DecidableEq κ] (g : κ → β)
    (ks : List κ) (m : κ) :
    ((ks.map (fun k => (k, g k))).find? (fun p => p.1 = m))
      = if m ∈ ks then some (m, g m) else none := by
  induction ks with
  | nil => simp
  | cons k ks ih =>
    by_cases hk : k = m
    · subst hk
      rw [List.map_cons, List.find?_cons_of_pos _ (by simp)]
      simp
    · rw [List.map_cons, List.find?_cons_of_neg _ (by simpa using hk), ih]
      by_cases hm : m ∈ ks
      · simp [hm, List.mem_cons, Ne.symm hk]
      · simp [hm, List.mem_cons, Ne.symm hk]

/-- Partition of a sum over a record list along a nodup key list covering
every record: summing the per-group sums gives the total sum. -/
theorem sum_over_groups {κ : Type} [DecidableEq κ] (key : Record → κ) :
    ∀ (ks : List κ) (l : List Record), ks.Nodup → (∀ r ∈ l, key r ∈ ks) →
    (ks.map (fun k =>
      ((l.filter (fun r => key r = k)).map (·.montant)).sum)).sum
      = (l.map (·.montant)).sum := by
  intro ks
  induction ks with
  | nil =>
    intro l _ hcov
    have hl : l = [] :=
      List.eq_nil_iff_forall_not_mem.mpr (fun r hr => by simpa using hcov r hr)
    simp [hl]
  | cons k ks ih =>
    intro l hnd hcov
    have hk : k ∉ ks := (List.nodup_cons.mp hnd).1
    have hnd' : ks.Nodup := (List.nodup_cons.mp hnd).2
    have htail : ks.map (fun q =>
          ((l.filter (fun r => key r = q)).map (·.montant)).sum)
        = ks.map (fun q =>
          (((l.filter (fun r => !(decide (key r = k)))).filter
            (fun r => key r = q)).map (·.montant)).sum) := by
      apply List.map_congr_left
      intro q hq
      have hqk : q ≠ k := fun h => hk (h ▸ hq)
      have heq : (l.filter (fun r => !(decide (key r = k)))).filter
            (fun r => key r = q) = l.filter (fun r => key r = q) := by
        rw [List.filter_filter]
        apply List.filter_congr
        intro r _
        by_cases h : key r = q
        · have hnk : key r ≠ k := by rw [h]; exact hqk
          simp [h, hnk, hqk]
        · simp [h]
      rw [heq]
    have hcov2 : ∀ r ∈ l.filter (fun r => !(decide (key r = k))), key r ∈ ks := by
      intro r hr
      have h1 := List.mem_filter.mp hr
      have h3 : ¬ (key r = k) := by simpa using h1.2
      rcases List.mem_cons.mp (hcov r h1.1) with h | h
      · exact absurd h h3
      · exact h
    rw [List.map_cons, List.sum_cons, htail,
        ih (l.filter (fun r => !(decide (key r = k)))) hnd' hcov2]
    exact sum_map_filter_add (fun r => decide (key r = k)) (·.montant) l

/-- When every month of the filtered set is canonical, the arrears loop
completes and collects exactly the names of the records the specification's
arrears predicate selects, in row order. -/
theorem retards_eq (df : List Record) (ref_year : Int) (ref_month : Nat)
    (h : ∀ r ∈ df, r.mois ∈ mois) :
    retards df ref_year ref_month
      = some ((df.filter (fun r =>
          decide (spec_in_arrears r ref_year ref_month))).map (·.nom)) := by
  induction df with
  | nil => rfl
  | cons row rest ih =>
    have hrow := mois_map_eq_canonical row.mois (h row (List.mem_cons_self row rest))
    have hrest := ih (fun r hr => h r (List.mem_cons_of_mem row hr))
    simp only [retards, hrow, hrest]
    by_cases hd : row.annee < ref_year
        ∨ (row.annee = ref_year ∧ canonical_month_index row.mois < ref_month)
    · by_cases hm0 : row.montant = 0
      · simp [List.filter_cons, spec_in_arrears, hd, hm0]
      · simp [List.filter_cons, spec_in_arrears, hd, hm0]
    · simp [List.filter_cons, spec_in_arrears, hd]

/-- Counting one value among the images of the rows kept by a filter equals
counting the rows that map to the value and pass the filter. -/
theorem count_map_filter {β : Type} [DecidableEq β] [BEq β] [LawfulBEq β]
    (f : Record → β) (p : Record → Bool) (l : List Record) (b : β) :
    ((l.filter p).map f).count b = l.countP (fun r => f r == b && p r) := by
  rw [List.count, List.countP_map, List.countP_filter]
  rfl

/-! ## Claims -/

/-- Claim C1, amended: for every filtered record set the by-month totals
contain exactly 12 entries, keyed by the canonical months in canonical
January-to-December order; a month present in the filtered set contributes
the sum of its amounts at its canonical position, and a month absent from
the filtered set contributes the missing value NaN (`none`) — not `0` — at
its canonical position. -/
theorem C1_month_totals_reindexed (df : List Record) :
    (total_par_mois df).length = 12
    ∧ (total_par_mois df).map Prod.fst = mois
    ∧ total_par_mois df
      = mois.map (fun m =>
          (m, if df.countP (fun r => r.mois = m) = 0 then none
              else some (((df.filter (fun r => r.mois = m)).map (·.montant)).sum))) := by
  have hmain : total_par_mois df
      = mois.map (fun m =>
          (m, if df.countP (fun r => r.mois = m) = 0 then none
              else some (((df.filter (fun r => r.mois = m)).map (·.montant)).sum))) := by
    rw [total_par_mois, groupby_mois_sum]
    apply List.map_congr_left
    intro m _
    rw [find_in_keyed_map]
    by_cases hp : m ∈ (df.map (·.mois)).dedup
    · rcases List.mem_map.mp (List.mem_dedup.mp hp) with ⟨r, hr, hE⟩
      have h2 : df.countP (fun r => decide (r.mois = m)) ≠ 0 :=
        Nat.pos_iff_ne_zero.mp (List.countP_pos_iff.mpr ⟨r, hr, by simp [hE]⟩)
      rw [if_pos hp, if_neg h2]
      rfl
    · have h2 : df.countP (fun r => decide (r.mois = m)) = 0 := by
        apply List.countP_eq_zero.mpr
        intro r hr hdec
        exact hp (List.mem_dedup.mpr
          (List.mem_map.mpr ⟨r, hr, of_decide_eq_true hdec⟩))
      rw [if_neg hp, if_pos h2]
      rfl
  refine ⟨?_, ?_, hmain⟩
  · rw [hmain, List.length_map]
    rfl
  · rw [hmain, List.map_map]
    exact List.map_id'' (fun m => rfl) mois

/-- Claim C1, counterexample to the claim as stated: on a filtered set whose
only record is a Janvier payment, the Février entry of the by-month totals
is the missing value (`none`), not a total of `0`. -/
theorem C1_absent_month_is_missing_value :
    (total_par_mois [⟨"A", 2024, "Janvier", 100⟩])[1]? = some ("Février", none)
    ∧ (total_par_mois [⟨"A", 2024, "Janvier", 100⟩])[1]? ≠ some ("Février", some 0) := by
  decide

/-- Claim C2: on a filtered set whose months are all canonical, the arrears
pass collects exactly the names of the records whose (year, month) strictly
precedes the reference (year, month) — `year < ref_year`, or
`year = ref_year` and canonical month index `< ref_month` — and whose amount
is `0`; and no record of the reference month itself or of any later month
satisfies the arrears predicate. -/
theorem C2_arrears_iff (df : List Record) (ref_year : Int) (ref_month : Nat)
    (h : ∀ r ∈ df, r.mois ∈ mois) :
    retards df ref_year ref_month
      = some ((df.filter (fun r =>
          decide (spec_in_arrears r ref_year ref_month))).map (·.nom))
    ∧ ∀ r ∈ df, (ref_year < r.annee
        ∨ (r.annee = ref_year ∧ ref_month ≤ canonical_month_index r.mois)) →
      ¬ spec_in_arrears r ref_year ref_month := by
  refine ⟨retards_eq df ref_year ref_month h, ?_⟩
  rintro r - hfuture ⟨hdate, -⟩
  rcases hfuture with h1 | ⟨h1, h2⟩ <;> rcases hdate with h3 | ⟨h3, h4⟩ <;> omega

/-- Claim C2, witness: the theorem applied to the specification's scenario
(reference date 2024-03), where the arrears list is Alice (February) and
Bob (January). -/
theorem C2_arrears_iff_witness :
    (retards demo_df 2024 3
      = some ((demo_df.filter (fun r =>
          decide (spec_in_arrears r 2024 3))).map (·.nom))
    ∧ ∀ r ∈ demo_df, ((2024 : Int) < r.annee
        ∨ (r.annee = 2024 ∧ 3 ≤ canonical_month_index r.mois)) →
      ¬ spec_in_arrears r 2024 3)
    ∧ retards demo_df 2024 3 = some ["Alice", "Bob"] :=
  ⟨C2_arrears_iff demo_df 2024 3 (by decide), by decide⟩

/-- Claim C3, amended: on a filtered set whose months are all canonical, the
arrears tally maps each member having at least one arrears row to the number
of arrears ROWS of that member — duplicate rows for the same
(member, year, month) are each counted — not to the number of distinct
(year, month) pairs. -/
theorem C3_arrears_row_counts (df : List Record) (ref_year : Int) (ref_month : Nat)
    (h : ∀ r ∈ df, r.mois ∈ mois) :
    retards_df df ref_year ref_month
      = some ((((df.filter (fun r =>
            decide (spec_in_arrears r ref_year ref_month))).map (·.nom)).dedup).map
          (fun n => (n, df.countP (fun r =>
            r.nom == n && decide (spec_in_arrears r ref_year ref_month))))) := by
  rw [retards_df, retards_eq df ref_year ref_month h]
  simp only [Option.map_some']
  congr 1
  apply List.map_congr_left
  intro n _
  congr 1
  exact count_map_filter (·.nom) _ df n

/-- Claim C3, witness: the amended theorem applied to the specification's
scenario set with reference date 2024-03. -/
theorem C3_arrears_row_counts_witness :
    retards_df demo_df 2024 3
      = some ((((demo_df.filter (fun r =>
            decide (spec_in_arrears r 2024 3))).map (·.nom)).dedup).map
          (fun n => (n, demo_df.countP (fun r =>
            r.nom == n && decide (spec_in_arrears r 2024 3))))) :=
  C3_arrears_row_counts demo_df 2024 3 (by decide)

/-- Claim C3, counterexample to the claim as stated: with two identical rows
for (Alice, 2023, Janvier) of amount 0 and reference date 2024-03, the code
tallies Alice at 2, while the number of distinct (year, month) pairs in
arrears for Alice is 1. -/
theorem C3_duplicate_rows_counted_twice :
    retards_df [⟨"Alice", 2023, "Janvier", 0⟩, ⟨"Alice", 2023, "Janvier", 0⟩] 2024 3
      = some [("Alice", 2)]
    ∧ spec_distinct_arrears_count
        [⟨"Alice", 2023, "Janvier", 0⟩, ⟨"Alice", 2023, "Janvier", 0⟩] "Alice" 2024 3
      = 1 := by
  decide

/-- Claim C4, amended: for every filtered record set, the member-by-month
pivot has one row per distinct member present (row labels without
duplicates, exactly the distinct member names), one column per distinct
month PRESENT in the filtered set — not one per canonical month — each cell
equal to the sum of the amounts of the records matching its (member, month)
pair, and `0` in every cell with no matching record. -/
theorem C4_pivot_shape (df : List Record) :
    ((pivot df).map Prod.fst).Nodup
    ∧ (pivot df).map Prod.fst = (df.map (·.nom)).dedup
    ∧ (∀ row ∈ pivot df, row.2.map Prod.fst = (df.map (·.mois)).dedup)
    ∧ (∀ row ∈ pivot df, ∀ cell ∈ row.2,
        cell.2 = ((df.filter (fun r =>
          decide (r.nom = row.1 ∧ r.mois = cell.1))).map (·.montant)).sum)
    ∧ (∀ row ∈ pivot df, ∀ cell ∈ row.2,
        (∀ r ∈ df, ¬ (r.nom = row.1 ∧ r.mois = cell.1)) → cell.2 = 0) := by
  have h2 : (pivot df).map Prod.fst = (df.map (·.nom)).dedup := by
    rw [pivot, List.map_map]
    exact List.map_id'' (fun n => rfl) _
  have h4 : ∀ row ∈ pivot df, ∀ cell ∈ row.2,
      cell.2 = ((df.filter (fun r =>
        decide (r.nom = row.1 ∧ r.mois = cell.1))).map (·.montant)).sum := by
    intro row hrow cell hcell
    rcases List.mem_map.mp hrow with ⟨n, _, rfl⟩
    rcases List.mem_map.mp hcell with ⟨m, _, rfl⟩
    have hf : df.filter (fun r => decide (r.nom = n ∧ r.mois = m))
        = df.filter (fun r => decide (r.nom = n) && decide (r.mois = m)) := by
      apply List.filter_congr
      intro r _
      exact Bool.decide_and _ _
    rw [hf]
  refine ⟨h2 ▸ List.nodup_dedup _, h2, ?_, h4, ?_⟩
  · intro row hrow
    rcases List.mem_map.mp hrow with ⟨n, _, rfl⟩
    rw [List.map_map]
    exact List.map_id'' (fun m => rfl) _
  · intro row hrow cell hcell hempty
    rw [h4 row hrow cell hcell]
    have hnil : df.filter (fun r => decide (r.nom = row.1 ∧ r.mois = cell.1)) = [] := by
      apply List.filter_eq_nil_iff.mpr
      intro r hr
      simpa using hempty r hr
    rw [hnil]
    rfl

/-- Claim C4, witness: the amended theorem applied to the specification's
scenario set. -/
theorem C4_pivot_shape_witness :
    ((pivot demo_df).map Prod.fst).Nodup
    ∧ (pivot demo_df).map Prod.fst = (demo_df.map (·.nom)).dedup
    ∧ (∀ row ∈ pivot demo_df, row.2.map Prod.fst = (demo_df.map (·.mois)).dedup)
    ∧ (∀ row ∈ pivot demo_df, ∀ cell ∈ row.2,
        cell.2 = ((demo_df.filter (fun r =>
          decide (r.nom = row.1 ∧ r.mois = cell.1))).map (·.montant)).sum)
    ∧ (∀ row ∈ pivot demo_df, ∀ cell ∈ row.2,
        (∀ r ∈ demo_df, ¬ (r.nom = row.1 ∧ r.mois = cell.1)) → cell.2 = 0) :=
  C4_pivot_shape demo_df

/-- Claim C4, counterexample to the claim as stated: on a filtered set whose
only record is a Janvier payment, the pivot has a single column (Janvier),
not one column for each of the 12 canonical months. -/
theorem C4_pivot_single_month_column :
    pivot [⟨"A", 2024, "Janvier", 100⟩] = [("A", [("Janvier", 100)])]
    ∧ ((pivot [⟨"A", 2024, "Janvier", 100⟩]).map (fun row => row.2.map Prod.fst))
      = [["Janvier"]]
    ∧ ["Janvier"] ≠ mois := by
  decide

/-- Claim C5, amended: a record whose month is not one of the 12 canonical
names is silently excluded by the filter whenever the month selection draws
from the canonical list (as the sidebar does: its option domain is the
canonical list), so it never reaches any downstream view and no error is
raised or reported. -/
theorem C5_noncanonical_month_excluded (df : List Record) (annee_select : List Int)
    (membre_select : List String) (mois_select : List String)
    (h : ∀ m ∈ mois_select, m ∈ mois) :
    (∀ r ∈ df_filtre df annee_select membre_select mois_select, r.mois ∈ mois)
    ∧ ∀ r ∈ df, r.mois ∉ mois →
        r ∉ df_filtre df annee_select membre_select mois_select := by
  have h1 : ∀ r ∈ df_filtre df annee_select membre_select mois_select,
      r.mois ∈ mois := by
    intro r hr
    simp only [df_filtre] at hr
    have h2 := (List.mem_filter.mp hr).2
    simp only [Bool.and_eq_true] at h2
    exact h r.mois (List.mem_of_elem_eq_true h2.2)
  exact ⟨h1, fun r _ hnc hr => hnc (h1 r hr)⟩

/-- Claim C5, witness: the amended theorem applied to the specification's
scenario set with the full canonical month selection. -/
theorem C5_noncanonical_month_excluded_witness :
    (∀ r ∈ df_filtre demo_df [2024] ["Alice", "Bob"] mois, r.mois ∈ mois)
    ∧ ∀ r ∈ demo_df, r.mois ∉ mois →
        r ∉ df_filtre demo_df [2024] ["Alice", "Bob"] mois :=
  C5_noncanonical_month_excluded demo_df [2024] ["Alice", "Bob"] mois
    (fun _ hm => hm)

/-- Claim C5, counterexample to the claim as stated: a record with the
unknown month name Foo is dropped from the filtered set even when every
selection covers it (its year and member are selected and the month
selection is the full canonical domain); its amount of 100 disappears from
the total with no error value anywhere in the pipeline. -/
theorem C5_noncanonical_month_silently_dropped :
    df_filtre [⟨"X", 2024, "Foo", 100⟩] [2024] ["X"] mois = []
    ∧ total_cotisations (df_filtre [⟨"X", 2024, "Foo", 100⟩] [2024] ["X"] mois) = 0
    ∧ total_cotisations [⟨"X", 2024, "Foo", 100⟩] = 100 := by
  decide

/-- Claim C6: the filter returns exactly the subsequence of records whose
year, member and month each belong to the corresponding selection set (the
spec-side predicate `spec_keep`), preserving input order; and if any of the
three selection sets is empty the result is the empty list. -/
theorem C6_filter_subsequence (df : List Record) (annee_select : List Int)
    (membre_select : List String) (mois_select : List String) :
    df_filtre df annee_select membre_select mois_select
      = df.filter (fun r => decide (spec_keep r annee_select membre_select mois_select))
    ∧ df_filtre df [] membre_select mois_select = []
    ∧ df_filtre df annee_select [] mois_select = []
    ∧ df_filtre df annee_select membre_select [] = [] := by
  refine ⟨?_, ?_, ?_, ?_⟩
  · apply List.filter_congr
    intro r _
    simp [spec_keep, List.elem_eq_mem, Bool.and_assoc]
  · simp [df_filtre]
  · simp [df_filtre]
  · simp [df_filtre]

/-- Claim C7: the filter is idempotent — filtering an already-filtered list
again with the same three selection sets returns it unchanged. -/
theorem C7_filter_idempotent (df : List Record) (annee_select : List Int)
    (membre_select : List String) (mois_select : List String) :
    df_filtre (df_filtre df annee_select membre_select mois_select)
        annee_select membre_select mois_select
      = df_filtre df annee_select membre_select mois_select := by
  simp only [df_filtre]
  apply List.filter_eq_self.mpr
  intro r hr
  exact (List.mem_filter.mp hr).2

/-- Claim C8: when every amount of the filtered set is non-negative, the
paid count (amounts strictly positive) plus the unpaid count (amounts equal
to zero) equals the number of filtered records. -/
theorem C8_paid_plus_unpaid (df : List Record)
    (h : ∀ r ∈ df, 0 ≤ r.montant) :
    nb_paiements df + nb_non_paiements df = df.length := by
  induction df with
  | nil => rfl
  | cons r l ih =>
    have hr : 0 ≤ r.montant := h r (List.mem_cons_self r l)
    have hl := ih (fun x hx => h x (List.mem_cons_of_mem r hx))
    simp only [nb_paiements, nb_non_paiements, List.countP_cons, List.length_cons] at *
    rcases lt_or_eq_of_le hr with h0 | h0
    · simp [h0, Int.ne_of_gt h0]
      omega
    · simp [← h0]
      omega

/-- Claim C8, witness: the theorem applied to the specification's scenario
set, all of whose amounts are non-negative. -/
theorem C8_paid_plus_unpaid_witness :
    nb_paiements demo_df + nb_non_paiements demo_df = demo_df.length :=
  C8_paid_plus_unpaid demo_df (by decide)

/-- Claim C9: for every filtered record set, the sum of the by-year totals
and the sum of the by-member totals both equal the overall total of
amounts. -/
theorem C9_totals_consistent (df : List Record) :
    ((total_par_annee df).map Prod.snd).sum = total_cotisations df
    ∧ ((total_par_membre df).map Prod.snd).sum = total_cotisations df := by
  constructor
  · rw [total_par_annee, total_cotisations, List.map_map]
    exact sum_over_groups (·.annee) _ df
      (((List.perm_insertionSort _ _).symm).nodup (List.nodup_dedup _))
      (fun r hr => ((List.perm_insertionSort _ _).mem_iff).mpr
        (List.mem_dedup.mpr (List.mem_map_of_mem _ hr)))
  · rw [total_par_membre, total_cotisations, List.map_map]
    exact sum_over_groups (·.nom) _ df (List.nodup_dedup _)
      (fun r hr => List.mem_dedup.mpr (List.mem_map_of_mem _ hr))

/-- Claim C10: when every month value of the filtered set is canonical, the
month-name lookup of the arrears pass succeeds on every record and the pass
completes without raising. -/
theorem C10_arrears_never_raises (df : List Record) (cy : Int) (cm : Nat)
    (h : ∀ r ∈ df, r.mois ∈ mois) :
    (∀ r ∈ df, (mois_map r.mois).isSome) ∧ (retards df cy cm).isSome := by
  constructor
  · intro r hr
    rw [mois_map_eq_canonical r.mois (h r hr)]
    rfl
  · rw [retards_eq df cy cm h]
    rfl

/-- Claim C10, witness: the theorem applied to the specification's scenario
set with reference date 2024-03. -/
theorem C10_arrears_never_raises_witness :
    (∀ r ∈ demo_df, (mois_map r.mois).isSome) ∧ (retards demo_df 2024 3).isSome :=
  C10_arrears_never_raises demo_df 2024 3 (by decide)

end Cotisations
